import Mathlib

/-!
Shallow embedding of the Forvo pronunciation MCP server
(`server/index.js`) — configuration, URL building, HTTP fetch with
redirect following, input validation, tool handlers and the dispatch
boundary — together with theorems settling the specification claims.

JavaScript strings are modelled as Lean `String`s (lists of code
points), bytes as `Fin 256`, absent/`undefined`/`null` values as
`Option`, and thrown exceptions as the `Except String` monad.  Network
and JSON-parse effects are passed in as explicit oracle functions.
-/

namespace AudioGen

/-- Bytes of a Node `Buffer`. -/
abbrev Byte := Fin 256

-- ── JavaScript-semantics helpers ─────────────────────────────────

/-- Truthiness of a JS string-or-absent value: `undefined`, `null`
and `""` are falsy; every other string is truthy. -/
def truthyS : Option String → Bool
  | none => false
  | some s => s ≠ ""

/-- JS `a || b` on string-or-absent values (used for
`best.pathmp3 || best.pathogg` and `item.original || word`). -/
def jsOrStr (a b : Option String) : Option String :=
  match a with
  | none => b
  | some s => if s = "" then b else some s

/-- JS `a || d` where the fallback is a plain string. -/
def jsOrD (a : Option String) (d : String) : String :=
  match a with
  | none => d
  | some s => if s = "" then d else s

/-- Whitespace as stripped by JS `String.prototype.trim`. -/
def jsIsWS (c : Char) : Bool :=
  c = ' ' || c = '\t' || c = '\n' || c = '\r'

/-- JS `value.trim()`: strip whitespace from both ends. -/
def jsTrim (s : String) : String :=
  ⟨((s.data.dropWhile jsIsWS).reverse.dropWhile jsIsWS).reverse⟩

/-- Does `hay` start with `needle` (on code-point lists)? -/
def charsStartWith : List Char → List Char → Bool
  | [], _ => true
  | _ :: _, [] => false
  | a :: as, b :: bs => a = b && charsStartWith as bs

/-- Does `hay` contain `needle` as a contiguous run (code-point lists)? -/
def charsContain (needle : List Char) : List Char → Bool
  | [] => needle.isEmpty
  | c :: cs => charsStartWith needle (c :: cs) || charsContain needle cs

/-- JS `hay.includes(needle)`. -/
def strIncludes (hay needle : String) : Bool :=
  charsContain needle.data hay.data

/-- The needle occurs contiguously inside the haystack. -/
def SubstrOf (needle hay : String) : Prop :=
  ∃ a b : List Char, hay.data = a ++ needle.data ++ b

-- ── Configuration (module-level constants in the source) ─────────

def FORVO_BASE_URL : String := "https://apifree.forvo.com"

/-- `process.env.DEFAULT_LANGUAGE || "ja"` with the variable unset. -/
def DEFAULT_LANGUAGE : String := "ja"

def HTTP_TIMEOUT_MS : Nat := 15000

-- ── URL building (`buildUrl`) ────────────────────────────────────

def FORVO_KEY_MISSING_MSG : String :=
  "FORVO_API_KEY environment variable is not set. " ++
    "Get your key at https://api.forvo.com/plans-and-pricing/"

/-- The path segment contributed by one `params` entry: skipped when
the value is `undefined`/`null` (`none`) or the empty string,
otherwise the verbatim `name/value`. -/
def paramSeg (kv : String × Option String) : Option String :=
  match kv.2 with
  | none => none
  | some v => if v = "" then none else some (kv.1 ++ "/" ++ v)

/-- An entry that contributes a segment. -/
def isNonEmptyParam (kv : String × Option String) : Bool :=
  match kv.2 with
  | none => false
  | some v => v ≠ ""

/-- `buildUrl(action, params)`.  The module-level `FORVO_API_KEY` is
passed explicitly; the empty string models an unset environment
variable (`process.env.FORVO_API_KEY || ""`), on which the function
throws before anything else happens. -/
def buildUrl (apiKey action : String) (params : List (String × Option String)) :
    Except String String :=
  if apiKey = "" then
    .error FORVO_KEY_MISSING_MSG
  else
    .ok (String.intercalate "/"
      ([FORVO_BASE_URL, "key/" ++ apiKey, "format/json", "action/" ++ action]
        ++ params.filterMap paramSeg))

-- ── Raw GET with redirect following (`rawGet`) ───────────────────

/-- What the network answers for one URL: status line, the
`Location` header when present, and the body bytes. -/
structure RawResponse where
  statusCode : Nat
  statusMessage : String
  location : Option String
  body : List Byte
deriving DecidableEq

/-- The value `rawGet` resolves with. -/
structure FetchResult where
  status : Nat
  statusMessage : String
  buffer : List Byte
deriving DecidableEq

/-- The redirect condition of the source:
`res.statusCode >= 300 && res.statusCode < 400 && res.headers.location`
(the header is tested for JS truthiness, so an empty value does not
redirect). -/
def isRedirect (r : RawResponse) : Bool :=
  300 ≤ r.statusCode && r.statusCode < 400 && truthyS r.location

/-- `rawGet(url)` against a network oracle `net`.  The source recurses
on every redirect with no depth guard; the embedding makes the
recursion depth explicit as fuel, `none` meaning the recursion has
not terminated within the given depth. -/
def rawGet (net : String → RawResponse) : Nat → String → Option FetchResult
  | 0, _ => none
  | fuel + 1, url =>
    let r := net url
    if isRedirect r then
      rawGet net fuel (r.location.getD "")
    else
      some ⟨r.statusCode, r.statusMessage, r.body⟩

-- ── Forvo request plumbing (`forvoRequest`) ──────────────────────

/-- The decoded (non-redirect) HTTP response `forvoRequest` sees:
status, status message and the body already decoded as UTF-8 text. -/
structure HttpResponse where
  status : Nat
  statusMessage : String
  body : String
deriving DecidableEq

/-- The message of the error thrown on a non-2xx status:
`Forvo API error: ${status} ${statusMessage}${body ? " — " + body : ""}`. -/
def forvoErrMsg (status : Nat) (statusMessage body : String) : String :=
  "Forvo API error: " ++ toString status ++ " " ++ statusMessage ++
    (if body = "" then "" else " — " ++ body)

/-- The status check of `forvoRequest`: non-2xx throws an error
carrying status and body, 2xx hands the body on to `JSON.parse`. -/
def forvoCheckStatus (resp : HttpResponse) : Except String String :=
  if resp.status < 200 ∨ 300 ≤ resp.status then
    .error (forvoErrMsg resp.status resp.statusMessage resp.body)
  else
    .ok resp.body

-- ── Forvo response data ──────────────────────────────────────────

/-- One element of the provider's `items` list, with the fields the
handlers read.  Fields the provider may omit are `Option`s. -/
structure ForvoItem where
  id : Nat := 0
  original : Option String := none
  username : String := ""
  sex : Option String := none
  country : String := ""
  pathmp3 : Option String := none
  pathogg : Option String := none
  rate : Int := 0
  num_votes : Nat := 0
  num_positive_votes : Nat := 0
deriving DecidableEq

/-- A parsed Forvo JSON document: the `items` field may be absent. -/
structure ForvoData where
  items : Option (List ForvoItem) := none
deriving DecidableEq

/-- `forvoRequest(action, params)`: build the URL (throwing without a
key), consult the network, check the status, parse the body.  The
network and `JSON.parse` are oracles. -/
def forvoRequest (apiKey action : String) (params : List (String × Option String))
    (net : String → HttpResponse) (parse : String → Except String ForvoData) :
    Except String ForvoData := do
  let url ← buildUrl apiKey action params
  let body ← forvoCheckStatus (net url)
  parse body

-- ── Input validation ─────────────────────────────────────────────

/-- `validateString(value, name, {minLen, maxLen})`.  A non-string
argument is modelled as `none` alongside absence: both fail the
`typeof value !== "string"` test. -/
def validateString (value : Option String) (name : String)
    (minLen : Nat := 1) (maxLen : Nat := 200) : Except String String :=
  match value with
  | none => .error (name ++ " is required and must be a non-empty string")
  | some s =>
    if (jsTrim s).data.length = 0 then
      .error (name ++ " is required and must be a non-empty string")
    else
      let trimmed := jsTrim s
      if trimmed.data.length < minLen ∨ maxLen < trimmed.data.length then
        .error (name ++ " must be between " ++ toString minLen ++ " and " ++
          toString maxLen ++ " characters")
      else
        .ok trimmed

/-- `validateLanguage(value)`. -/
def validateLanguage (value : Option String) : Except String String :=
  match value with
  | none => .ok DEFAULT_LANGUAGE
  | some v =>
    let lang := jsTrim v
    if lang.data.length < 2 ∨ 5 < lang.data.length then
      .error "language must be a 2-5 character code (e.g. \x27ja\x27, \x27en\x27)"
    else
      .ok lang

/-- `validateSex(value)`. -/
def validateSex (value : Option String) : Except String (Option String) :=
  match value with
  | none => .ok none
  | some v =>
    if v = "m" ∨ v = "f" then .ok (some v)
    else .error "sex must be \x27m\x27 or \x27f\x27"

/-- `validateOrder(value, allowed)`. -/
def validateOrder (value : Option String) (allowed : List String) :
    Except String String :=
  match value with
  | none => .ok (allowed.headD "")
  | some v =>
    if allowed.contains v then .ok v
    else .error ("order must be one of: " ++ String.intercalate ", " allowed)

/-- What `Number(value)` yields for a present argument: an integer,
or some non-integer number (`NaN`, a fraction, ...). -/
inductive JsNum where
  | int (n : Int)
  | nonInt
deriving DecidableEq

/-- The `ValidationError` message of `validateInt`, naming both bounds. -/
def intErrMsg (name : String) (mn mx : Int) : String :=
  name ++ " must be an integer between " ++ toString mn ++ " and " ++ toString mx

/-- `validateInt(value, name, {min, max, defaultVal})`.  `defaultVal`
may itself be `undefined` (`none`), as for `min_rate`. -/
def validateInt (value : Option JsNum) (name : String) (mn mx : Int)
    (defaultVal : Option Int) : Except String (Option Int) :=
  match value with
  | none => .ok defaultVal
  | some (.int n) =>
    if n < mn ∨ mx < n then .error (intErrMsg name mn mx)
    else .ok (some n)
  | some .nonInt => .error (intErrMsg name mn mx)

-- ── Base64 (Node `buffer.toString("base64")`) ────────────────────

/-- The standard base64 alphabet. -/
def base64Chars : List Char :=
  "ABCDEFGHIJKLMNOPQRSTUVWXYZabcdefghijklmnopqrstuvwxyz0123456789+/".data

/-- The base64 digit for a sextet. -/
def b64c (n : Nat) : Char := base64Chars.getD n 'A'

/-- Standard base64 with `=` padding, as produced by
`buffer.toString("base64")`. -/
def base64Encode : List Byte → String
  | [] => ""
  | [a] =>
    ⟨[b64c (a.val / 4), b64c (a.val % 4 * 16), '=', '=']⟩
  | [a, b] =>
    ⟨[b64c (a.val / 4), b64c (a.val % 4 * 16 + b.val / 16),
      b64c (b.val % 16 * 4), '=']⟩
  | a :: b :: c :: rest =>
    (⟨[b64c (a.val / 4), b64c (a.val % 4 * 16 + b.val / 16),
       b64c (b.val % 16 * 4 + c.val / 64), b64c (c.val % 64)]⟩ : String)
      ++ base64Encode rest

-- ── Parameter lookup helper ──────────────────────────────────────

/-- The value sent for key `k`, when `k` is among the request
parameters. -/
def paramValue (ps : List (String × Option String)) (k : String) :
    Option (Option String) :=
  (ps.find? (fun kv => kv.1 == k)).map (fun kv => kv.2)

-- ── `forvo_word_pronunciations` handler ──────────────────────────

/-- The raw argument object of `forvo_word_pronunciations`. -/
structure WordArgs where
  word : Option String := none
  language : Option String := none
  country : Option String := none
  sex : Option String := none
  min_rate : Option JsNum := none
  order : Option String := none
  limit : Option JsNum := none
deriving DecidableEq

/-- One element of the `items` array of the tool's JSON reply. -/
structure WordPronsEntry where
  id : Nat
  word : String
  username : String
  sex : Option String
  country : String
  pathmp3 : Option String
  pathogg : Option String
  rate : Int
  num_votes : Nat
  num_positive_votes : Nat
deriving DecidableEq

/-- The reply of `forvo_word_pronunciations`: either the informational
no-results text or the word/language/count/items payload. -/
inductive WordPronsResult where
  | noResults (msg : String)
  | results (word language : String) (count : Nat) (items : List WordPronsEntry)
deriving DecidableEq

/-- The mapping applied to each provider item
(`items.map((item) => ({...}))`). -/
def mkWordEntry (word : String) (item : ForvoItem) : WordPronsEntry :=
  { id := item.id
    word := jsOrD item.original word
    username := item.username
    sex := item.sex
    country := item.country
    pathmp3 := item.pathmp3
    pathogg := item.pathogg
    rate := item.rate
    num_votes := item.num_votes
    num_positive_votes := item.num_positive_votes }

/-- The request parameters `handleWordPronunciations` sends to the
provider: `{word, language, order, limit}` plus `country`, `sex` and
`rate` when present, in insertion order. -/
def wordLookupParams (args : WordArgs) :
    Except String (List (String × Option String)) := do
  let word ← validateString args.word "word"
  let language ← validateLanguage args.language
  let sex ← validateSex args.sex
  let order ← validateOrder args.order
    ["rate-desc", "rate-asc", "date-desc", "date-asc"]
  let limit ← validateInt args.limit "limit" 1 50 (some 5)
  let minRate ← validateInt args.min_rate "min_rate" 0 5 none
  let country ← (match truthyS args.country with
    | true => (validateString args.country "country" 3 3).map some
    | false => .ok none)
  .ok ([("word", some word), ("language", some language),
        ("order", some order), ("limit", limit.map toString)]
    ++ (match country with | some c => [("country", some c)] | none => [])
    ++ (match sex with | some s => [("sex", some s)] | none => [])
    ++ (match minRate with | some r => [("rate", some (toString r))] | none => []))

/-- `handleWordPronunciations(args)` after the provider replied with
`data`: validate the arguments, default a missing `items` field to
the empty list, answer the informational no-results text when it is
empty and the mapped payload otherwise. -/
def handleWordPronunciations (args : WordArgs) (data : ForvoData) :
    Except String WordPronsResult := do
  let word ← validateString args.word "word"
  let language ← validateLanguage args.language
  let _sex ← validateSex args.sex
  let _order ← validateOrder args.order
    ["rate-desc", "rate-asc", "date-desc", "date-asc"]
  let _limit ← validateInt args.limit "limit" 1 50 (some 5)
  let _minRate ← validateInt args.min_rate "min_rate" 0 5 none
  let _country ← (match truthyS args.country with
    | true => (validateString args.country "country" 3 3).map some
    | false => .ok none)
  let items := data.items.getD []
  if items.isEmpty then
    .ok (.noResults ("No pronunciations found for \x27" ++ word ++
      "\x27 in language \x27" ++ language ++ "\x27"))
  else
    .ok (.results word language (items.map (mkWordEntry word)).length
      (items.map (mkWordEntry word)))

-- ── `forvo_download_pronunciation` handler ───────────────────────

/-- The raw argument object of `forvo_download_pronunciation`.  The
schema declares `word`, `language` and `sex`; `order` and `limit`
stand for caller-supplied extras the handler never reads. -/
structure DownloadArgs where
  word : Option String := none
  language : Option String := none
  sex : Option String := none
  order : Option String := none
  limit : Option JsNum := none
deriving DecidableEq

/-- The fixed provider-lookup parameters of the download flow:
`{word, language, order: "rate-desc", limit: 5}`. -/
def mkDownloadParams (word language : String) : List (String × Option String) :=
  [("word", some word), ("language", some language),
   ("order", some "rate-desc"), ("limit", some "5")]

/-- The sex filter of the download flow: keep the exact matches, but
fall back to the whole list when nothing matches
(`if (filtered.length > 0) items = filtered`). -/
def applySexFilter (sex : Option String) (items : List ForvoItem) :
    List ForvoItem :=
  match sex with
  | none => items
  | some s =>
    let filtered := items.filter (fun i => i.sex == some s)
    if filtered.isEmpty then items else filtered

/-- The JSON payload of a successful download. -/
structure AudioPayload where
  word : String
  language : String
  audio_base64 : String
  format : String
  size_bytes : Nat
  username : String
  sex : Option String
  country : String
  rate : Int
deriving DecidableEq

/-- The reply of `forvo_download_pronunciation`. -/
inductive DownloadResult where
  | noPronunciations (msg : String)
  | noAudioUrl (msg : String)
  | payload (p : AudioPayload)
deriving DecidableEq

/-- The two effects the download handler performs: the Forvo lookup
(already composed of URL building, status check and JSON parse) and
the audio download (`downloadAudio`). -/
structure DownloadDeps where
  lookup : List (String × Option String) → Except String ForvoData
  download : String → Except String (List Byte)

/-- `handleDownloadPronunciation(args)`: validate, look the word up
with order and limit fixed, pick the best item after the best-effort
sex filter, choose mp3 over ogg by truthiness, download, and report
base64 data, URL-derived format and byte length. -/
def handleDownloadPronunciation (deps : DownloadDeps) (args : DownloadArgs) :
    Except String DownloadResult := do
  let word ← validateString args.word "word"
  let language ← validateLanguage args.language
  let sex ← validateSex args.sex
  let data ← deps.lookup (mkDownloadParams word language)
  match data.items.getD [] with
  | [] =>
    .ok (.noPronunciations ("No pronunciations found for \x27" ++ word ++
      "\x27 in \x27" ++ language ++ "\x27"))
  | i :: is =>
    let best := (applySexFilter sex (i :: is)).headD i
    let audioUrl := jsOrStr best.pathmp3 best.pathogg
    if truthyS audioUrl then
      let url := audioUrl.getD ""
      do
        let bytes ← deps.download url
        .ok (.payload
          { word := word
            language := language
            audio_base64 := base64Encode bytes
            format := if strIncludes url "mp3" then "mp3" else "ogg"
            size_bytes := bytes.length
            username := best.username
            sex := best.sex
            country := best.country
            rate := best.rate })
    else
      .ok (.noAudioUrl ("No audio URL available for \x27" ++ word ++ "\x27"))

-- ── Tool dispatch boundary ───────────────────────────────────────

/-- What the `CallToolRequestSchema` handler produces: either the
uniform envelope (a single text payload, with the `isError` flag on
failures), or an error thrown out of the handler itself, which the
transport layer — not this code — turns into a protocol-level
failure. -/
inductive DispatchOutcome where
  | envelope (text : String) (isError : Bool)
  | thrownError (msg : String)
deriving DecidableEq

/-- Is the outcome the uniform envelope? -/
def isEnvelopeOutcome : DispatchOutcome → Bool
  | .envelope _ _ => true
  | .thrownError _ => false

/-- A hexadecimal digit as used by `JSON.stringify` escapes. -/
def hexDigit (n : Nat) : Char := "0123456789abcdef".data.getD n '0'

/-- How `JSON.stringify` escapes one character of a string. -/
def jsonEscapeChar (c : Char) : String :=
  if c = '"' then "\\\""
  else if c = '\\' then "\\\\"
  else if c = '\x08' then "\\b"
  else if c = '\x09' then "\\t"
  else if c = '\x0a' then "\\n"
  else if c = '\x0c' then "\\f"
  else if c = '\x0d' then "\\r"
  else if c.toNat < 32 then
    "\\u00" ++ ⟨[hexDigit (c.toNat / 16), hexDigit (c.toNat % 16)]⟩
  else ⟨[c]⟩

/-- `JSON.stringify` of a string value. -/
def jsonQuote (s : String) : String :=
  "\"" ++ String.join (s.data.map jsonEscapeChar) ++ "\""

/-- The text payload of the failure envelope:
`JSON.stringify({error: err.message, tool: name}, null, 2)`. -/
def errorEnvelopeText (errMsg toolName : String) : String :=
  "\x7b\n  \"error\": " ++ jsonQuote errMsg ++ ",\n  \"tool\": " ++
    jsonQuote toolName ++ "\n\x7d"

/-- The `CallToolRequestSchema` handler around an arbitrary handler
table: an unknown name throws `Unknown tool: ...` BEFORE the
try/catch; a known handler runs inside it, its thrown errors becoming
the failure envelope and its result the success envelope. -/
def dispatchTool {α : Type} (handlers : String → Option (α → Except String String))
    (name : String) (args : α) : DispatchOutcome :=
  match handlers name with
  | none => .thrownError ("Unknown tool: " ++ name)
  | some h =>
    match h args with
    | .ok text => .envelope text false
    | .error e => .envelope (errorEnvelopeText e name) true

/-- The names registered in `TOOL_HANDLERS`, in source order. -/
def TOOL_HANDLER_NAMES : List String :=
  ["forvo_word_pronunciations", "forvo_standard_pronunciation",
   "forvo_download_pronunciation", "forvo_search_words", "forvo_language_list"]

/-- A handler table with exactly the domain of `TOOL_HANDLERS`,
generic in the handler bodies (the dispatch boundary never inspects
them beyond running the one that was looked up). -/
def mkToolHandlers {α : Type} (impl : String → α → Except String String) :
    String → Option (α → Except String String) :=
  fun name =>
    if TOOL_HANDLER_NAMES.contains name then some (impl name) else none

/-- Split a code-point list at every `/` (the path-segment structure
of a URL string). -/
def splitOnSlash : List Char → List (List Char)
  | [] => [[]]
  | c :: cs =>
    match splitOnSlash cs with
    | [] => [[]]
    | seg :: rest => if c = '/' then [] :: seg :: rest else (c :: seg) :: rest

/-- How many `/`-separated segments a string has. -/
def segCount (s : String) : Nat := (splitOnSlash s.data).length

/-- A concrete provider item used in concrete instantiations. -/
def demoItem : ForvoItem :=
  { username := "u", sex := some "f", country := "Japan",
    pathmp3 := some "https://audio.forvo.com/x.mp3", rate := 2 }

/-- Concrete download effects: one provider item, the bytes `ID3`. -/
def demoDeps : DownloadDeps :=
  ⟨fun _ => .ok ⟨some [demoItem]⟩, fun _ => .ok [(73 : Byte), 68, 51]⟩

-- ── Helper lemmas ────────────────────────────────────────────────

theorem intercalate_go_eq_foldl (acc s : String) (xs : List String) :
    String.intercalate.go acc s xs = xs.foldl (fun a b => a ++ s ++ b) acc := by
  induction xs generalizing acc with
  | nil => rfl
  | cons y ys ih => simp [String.intercalate.go, List.foldl, ih]

theorem intercalate_cons_eq_foldl (s x : String) (xs : List String) :
    String.intercalate s (x :: xs) = xs.foldl (fun a b => a ++ s ++ b) x := by
  simp [String.intercalate, intercalate_go_eq_foldl]

theorem filterMap_paramSeg_length (ps : List (String × Option String)) :
    (ps.filterMap paramSeg).length = ps.countP isNonEmptyParam := by
  induction ps with
  | nil => rfl
  | cons kv rest ih =>
    rcases kv with ⟨k, v⟩
    match v with
    | none => simpa [paramSeg, isNonEmptyParam, List.countP_cons] using ih
    | some s =>
      by_cases hs : s = "" <;>
        simp [paramSeg, isNonEmptyParam, List.countP_cons, hs, ih]

/-- With a key configured, `buildUrl` is the `/`-join of the base
host, the key segment, the format segment, the action segment and the
non-empty parameter segments. -/
theorem buildUrl_ok_concat (apiKey action : String)
    (params : List (String × Option String)) (hk : apiKey ≠ "") :
    buildUrl apiKey action params =
      .ok ((params.filterMap paramSeg).foldl (fun a b => a ++ "/" ++ b)
        (FORVO_BASE_URL ++ "/" ++ ("key/" ++ apiKey) ++ "/" ++ "format/json" ++
          "/" ++ ("action/" ++ action))) := by
  unfold buildUrl
  rw [if_neg hk]
  congr 1
  have hcons : [FORVO_BASE_URL, "key/" ++ apiKey, "format/json",
      "action/" ++ action] ++ params.filterMap paramSeg =
      FORVO_BASE_URL :: (["key/" ++ apiKey, "format/json",
        "action/" ++ action] ++ params.filterMap paramSeg) := rfl
  rw [hcons, intercalate_cons_eq_foldl, List.foldl_append]
  rfl

theorem exceptBind_eq_ok {ε α β : Type} {x : Except ε α} {f : α → Except ε β}
    {b : β} : (x >>= f) = .ok b ↔ ∃ a, x = .ok a ∧ f a = .ok b := by
  cases x with
  | error e =>
    simp only [show ∀ g : α → Except ε β, (Except.error e >>= g) = Except.error e
      from fun _ => rfl]
    constructor
    · intro h; cases h
    · rintro ⟨a, ha, _⟩; cases ha
  | ok a =>
    simp only [show ∀ g : α → Except ε β, (Except.ok a >>= g) = g a
      from fun _ => rfl]
    constructor
    · intro h; exact ⟨a, rfl, h⟩
    · rintro ⟨a2, ha, hf⟩; cases ha; exact hf

@[simp] theorem exceptBind_ok {ε α β : Type} (a : α) (f : α → Except ε β) :
    (Except.ok a >>= f) = f a := rfl

@[simp] theorem exceptBind_err {ε α β : Type} (e : ε) (f : α → Except ε β) :
    ((Except.error e : Except ε α) >>= f) = Except.error e := rfl

theorem jsOrStr_cases {a b : Option String} {u : String}
    (h : jsOrStr a b = some u) :
    (truthyS a = true → a = some u) ∧ (truthyS a = false → b = some u) := by
  rcases a with _ | s
  · refine ⟨fun ht => ?_, fun _ => h⟩
    simp [truthyS] at ht
  · by_cases hs : s = ""
    · subst hs
      refine ⟨fun ht => ?_, fun _ => h⟩
      simp [truthyS] at ht
    · refine ⟨fun _ => ?_, fun hf => ?_⟩
      · have h2 : s = u := by simpa [jsOrStr, hs] using h
        rw [h2]
      · simp [truthyS, hs] at hf

theorem validateInt_ok_cases {value : Option JsNum} {name : String} {mn mx : Int}
    {d : Option Int} {r : Option Int}
    (h : validateInt value name mn mx d = .ok r) :
    (value = none ∧ r = d) ∨ ∃ n, r = some n ∧ mn ≤ n ∧ n ≤ mx := by
  rcases value with _ | v
  · exact Or.inl ⟨rfl, (Except.ok.inj h).symm⟩
  · rcases v with n | _
    · simp only [validateInt] at h
      split at h
      · cases h
      · rename_i hrange
        exact Or.inr ⟨n, (Except.ok.inj h).symm, by omega⟩
    · cases h

-- ── Claim theorems ───────────────────────────────────────────────

/-- C1 (counterexample): calling a tool name that is not in the
handler table does not produce the uniform envelope at all — the
`Unknown tool` error is thrown before the try/catch and so leaves the
dispatch boundary as a transport-level fault. -/
theorem c1_unknown_tool_not_enveloped :
    dispatchTool (mkToolHandlers (fun _ (_ : Unit) => Except.ok ""))
        "nonexistent_tool" () =
      .thrownError "Unknown tool: nonexistent_tool"
    ∧ isEnvelopeOutcome (dispatchTool (mkToolHandlers (fun _ (_ : Unit) => Except.ok ""))
        "nonexistent_tool" ()) = false := by
  constructor <;> rfl

/-- C1 (amended): for a registered tool, every handler failure is
delivered in the successful-transport envelope with the error flag
set, the payload embedding the error message and the offending tool
name, and every handler success in the same envelope without the
flag; an unknown tool name, by contrast, is thrown out of the
dispatch boundary as `Unknown tool: ...` and never wrapped in the
envelope. -/
theorem c1_dispatch_failure_envelope {α : Type}
    (handlers : String → Option (α → Except String String))
    (name : String) (args : α) :
    (∀ h e, handlers name = some h → h args = .error e →
      dispatchTool handlers name args = .envelope (errorEnvelopeText e name) true
      ∧ SubstrOf (jsonQuote e) (errorEnvelopeText e name)
      ∧ SubstrOf (jsonQuote name) (errorEnvelopeText e name))
    ∧ (∀ h t, handlers name = some h → h args = .ok t →
      dispatchTool handlers name args = .envelope t false)
    ∧ (handlers name = none →
      dispatchTool handlers name args = .thrownError ("Unknown tool: " ++ name)) := by
  refine ⟨fun h e hh he => ⟨?_, ?_, ?_⟩, fun h t hh ht => ?_, fun hn => ?_⟩
  · simp [dispatchTool, hh, he]
  · exact ⟨"\x7b\n  \"error\": ".data,
      (",\n  \"tool\": " ++ jsonQuote name ++ "\n\x7d").data,
      by simp [errorEnvelopeText, String.data_append]⟩
  · exact ⟨("\x7b\n  \"error\": " ++ jsonQuote e ++ ",\n  \"tool\": ").data,
      "\n\x7d".data,
      by simp [errorEnvelopeText, String.data_append]⟩
  · simp [dispatchTool, hh, ht]
  · simp [dispatchTool, hn]

/-- C1 (witness): a concrete registered tool whose handler throws is
answered with the error envelope. -/
theorem c1_dispatch_failure_envelope_witness :
    dispatchTool (mkToolHandlers (fun _ (_ : Unit) => Except.error "boom"))
        "forvo_search_words" () =
      .envelope (errorEnvelopeText "boom" "forvo_search_words") true :=
  ((c1_dispatch_failure_envelope
      (mkToolHandlers (fun _ (_ : Unit) => Except.error "boom"))
      "forvo_search_words" ()).1
    _ "boom" rfl rfl).1

/-- C2: in the download flow, with a requested sex and a non-empty
item list, the selected item is the first exact sex match when the
filter is non-empty, and the first item of the unfiltered list when
the filter matches nothing. -/
theorem c2_sex_filter_selection (s : String) (i : ForvoItem) (is : List ForvoItem) :
    (∀ j js, (i :: is).filter (fun x => x.sex == some s) = j :: js →
      (applySexFilter (some s) (i :: is)).headD i = j ∧ j.sex = some s)
    ∧ ((i :: is).filter (fun x => x.sex == some s) = [] →
      (applySexFilter (some s) (i :: is)).headD i = i) := by
  constructor
  · intro j js hf
    constructor
    · simp [applySexFilter, hf]
    · have hj : j ∈ (i :: is).filter (fun x => x.sex == some s) := by
        rw [hf]; exact List.mem_cons_self j js
      have := (List.mem_filter.mp hj).2
      simpa using this
  · intro hf
    simp [applySexFilter, hf]

/-- C2 (witness): with items `[sex f, sex m]` and requested sex `m`
the male item is selected; with items all `f` and requested `m` the
filter is empty and the top unfiltered item is selected. -/
theorem c2_sex_filter_selection_witness :
    (applySexFilter (some "m")
        [{ sex := some "f", rate := 5 }, { sex := some "m", rate := 3 }]).headD
        { sex := some "f", rate := 5 } = { sex := some "m", rate := 3 }
    ∧ (applySexFilter (some "m")
        [{ sex := some "f", rate := 5 }]).headD
        { sex := some "f", rate := 5 } = { sex := some "f", rate := 5 } :=
  ⟨((c2_sex_filter_selection "m" { sex := some "f", rate := 5 }
      [{ sex := some "m", rate := 3 }]).1
      { sex := some "m", rate := 3 } [] (by decide)).1,
    (c2_sex_filter_selection "m" { sex := some "f", rate := 5 } []).2 (by decide)⟩

/-- C7: a GET whose response is 3xx with a (non-empty) Location
header is re-issued against the Location URL — the fetch of the
original URL equals the fetch of the redirect target — and when the
target answers 2xx the caller receives exactly that target's status
and bytes, as for a direct request. -/
theorem c7_rawGet_redirect (net : String → RawResponse) (url loc : String)
    (fuel : Nat)
    (h3 : 300 ≤ (net url).statusCode) (h4 : (net url).statusCode < 400)
    (hloc : (net url).location = some loc) (hne : loc ≠ "") :
    rawGet net (fuel + 1) url = rawGet net fuel loc
    ∧ (200 ≤ (net loc).statusCode → (net loc).statusCode < 300 →
        rawGet net (fuel + 2) url =
          some ⟨(net loc).statusCode, (net loc).statusMessage, (net loc).body⟩
        ∧ rawGet net (fuel + 1) loc =
          some ⟨(net loc).statusCode, (net loc).statusMessage, (net loc).body⟩) := by
  have hred : isRedirect (net url) = true := by
    simp [isRedirect, truthyS, hloc, hne, h3, h4]
  have hstep : ∀ f, rawGet net (f + 1) url = rawGet net f loc := by
    intro f
    simp [rawGet, hred, hloc]
  refine ⟨hstep fuel, fun h200 h300 => ?_⟩
  have hnored : isRedirect (net loc) = false := by
    simp [isRedirect]
    intro h
    omega
  have hdirect : rawGet net (fuel + 1) loc =
      some ⟨(net loc).statusCode, (net loc).statusMessage, (net loc).body⟩ := by
    simp [rawGet, hnored]
  exact ⟨by rw [show fuel + 2 = (fuel + 1) + 1 from rfl, hstep (fuel + 1), hdirect],
    hdirect⟩

/-- C7 (witness): a concrete one-hop redirect resolves to the final
resource's status and bytes. -/
theorem c7_rawGet_redirect_witness :
    rawGet
      (fun u => if u = "https://a/x" then ⟨302, "Found", some "https://b/y", []⟩
        else ⟨200, "OK", none, [⟨73, by decide⟩]⟩)
      2 "https://a/x" = some ⟨200, "OK", [⟨73, by decide⟩]⟩ :=
  ((c7_rawGet_redirect
      (fun u => if u = "https://a/x" then ⟨302, "Found", some "https://b/y", []⟩
        else ⟨200, "OK", none, [⟨73, by decide⟩]⟩)
      "https://a/x" "https://b/y" 0
      (by decide) (by decide) (by decide) (by decide)).2
    (by decide) (by decide)).1

/-- C5: with no API key configured the builder throws its
configuration error and `forvoRequest` fails identically for every
network and parse oracle — i.e. before any network request; with a
key, the URL is the base host, the key segment, the fixed format
segment and the action segment joined by `/`, followed by exactly one
`name/value` segment per parameter whose value is non-empty. -/
theorem c5_buildUrl_segments (action : String)
    (params : List (String × Option String)) :
    (buildUrl "" action params = .error FORVO_KEY_MISSING_MSG
      ∧ ∀ net parse, forvoRequest "" action params net parse =
          .error FORVO_KEY_MISSING_MSG)
    ∧ ∀ apiKey, apiKey ≠ "" →
        buildUrl apiKey action params =
          .ok ((params.filterMap paramSeg).foldl (fun a b => a ++ "/" ++ b)
            (FORVO_BASE_URL ++ "/" ++ ("key/" ++ apiKey) ++ "/" ++ "format/json" ++
              "/" ++ ("action/" ++ action)))
        ∧ (params.filterMap paramSeg).length = params.countP isNonEmptyParam := by
  refine ⟨⟨rfl, fun net parse => rfl⟩, fun apiKey hk => ?_⟩
  exact ⟨buildUrl_ok_concat apiKey action params hk, filterMap_paramSeg_length params⟩

/-- C5 (witness): a concrete call with the key missing fails with the
configuration error for an arbitrary concrete network oracle, and a
concrete keyed call produces the expected URL. -/
theorem c5_buildUrl_segments_witness :
    forvoRequest "" "word-pronunciations" [("word", some "neko")]
        (fun _ => ⟨200, "OK", "\x7b\x7d"⟩) (fun _ => .ok ⟨none⟩) =
      .error FORVO_KEY_MISSING_MSG
    ∧ buildUrl "K" "word-pronunciations" [("word", some "neko"), ("sex", none)] =
      .ok ((([("word", some "neko"), ("sex", none)].filterMap paramSeg)).foldl
        (fun a b => a ++ "/" ++ b)
        (FORVO_BASE_URL ++ "/" ++ ("key/" ++ "K") ++ "/" ++ "format/json" ++
          "/" ++ ("action/" ++ "word-pronunciations"))) :=
  ⟨(c5_buildUrl_segments "word-pronunciations" [("word", some "neko")]).1.2
      (fun _ => ⟨200, "OK", "\x7b\x7d"⟩) (fun _ => .ok ⟨none⟩),
    ((c5_buildUrl_segments "word-pronunciations"
      [("word", some "neko"), ("sex", none)]).2 "K" (by decide)).1⟩

/-- C10: the URL builder inserts action, parameter names and values
verbatim — for any non-empty value the result is the exact `/`-join
with no percent-encoding — and a value containing `/` adds a path
segment to the resulting URL, as two concrete URLs differing only in
a `x/y` versus `xy` value demonstrate. -/
theorem c10_buildUrl_verbatim :
    (∀ apiKey action k v, apiKey ≠ "" → v ≠ "" →
      buildUrl apiKey action [(k, some v)] =
        .ok (FORVO_BASE_URL ++ "/" ++ ("key/" ++ apiKey) ++ "/" ++ "format/json" ++
          "/" ++ ("action/" ++ action) ++ "/" ++ (k ++ "/" ++ v)))
    ∧ buildUrl "K" "word-pronunciations" [("word", some "x/y")] =
        .ok "https://apifree.forvo.com/key/K/format/json/action/word-pronunciations/word/x/y"
    ∧ buildUrl "K" "word-pronunciations" [("word", some "xy")] =
        .ok "https://apifree.forvo.com/key/K/format/json/action/word-pronunciations/word/xy"
    ∧ segCount "https://apifree.forvo.com/key/K/format/json/action/word-pronunciations/word/x/y"
        = segCount "https://apifree.forvo.com/key/K/format/json/action/word-pronunciations/word/xy"
          + 1 := by
  refine ⟨fun apiKey action k v hk hv => ?_, rfl, rfl, by decide⟩
  rw [buildUrl_ok_concat apiKey action [(k, some v)] hk]
  simp [paramSeg, hv]

/-- C10 (witness): the verbatim join at a concrete key, action and
parameter. -/
theorem c10_buildUrl_verbatim_witness :
    buildUrl "K" "a" [("p", some "v")] =
      .ok (FORVO_BASE_URL ++ "/" ++ ("key/" ++ "K") ++ "/" ++ "format/json" ++
        "/" ++ ("action/" ++ "a") ++ "/" ++ ("p" ++ "/" ++ "v")) :=
  c10_buildUrl_verbatim.1 "K" "a" "p" "v" (by decide) (by decide)

/-- C3: a bounded-integer field yields the supplied default when
absent; a present value that is not an integer inside `[min, max]`
fails with the `ValidationError` naming both bounds; a present value
that validates is an integer inside the bounds; and the integers the
word-pronunciations flow actually sends to the network — the `limit`
and `rate` parameters — are always inside their declared ranges. -/
theorem c3_validateInt_bounds :
    (∀ name mn mx d, validateInt none name mn mx d = .ok d)
    ∧ (∀ value name mn mx d n,
        validateInt (some value) name mn mx d = .ok n →
        ∃ m, n = some m ∧ value = .int m ∧ mn ≤ m ∧ m ≤ mx)
    ∧ (∀ value name mn mx d,
        (match value with | .int n => n < mn ∨ mx < n | .nonInt => True) →
        validateInt (some value) name mn mx d = .error (intErrMsg name mn mx))
    ∧ (∀ args ps, wordLookupParams args = .ok ps →
        (∀ v, paramValue ps "limit" = some v →
          ∃ n : Int, v = some (toString n) ∧ 1 ≤ n ∧ n ≤ 50)
        ∧ (∀ v, paramValue ps "rate" = some v →
          ∃ n : Int, v = some (toString n) ∧ 0 ≤ n ∧ n ≤ 5)) := by
  refine ⟨fun name mn mx d => rfl, ?_, ?_, ?_⟩
  · intro value name mn mx d n h
    rcases value with m | _
    · simp only [validateInt] at h
      split at h
      · cases h
      · rename_i hrange
        exact ⟨m, (Except.ok.inj h).symm, rfl, by omega⟩
    · cases h
  · intro value name mn mx d hbad
    rcases value with m | _
    · simp only [validateInt]
      rw [if_pos hbad]
    · rfl
  · intro args ps hps
    unfold wordLookupParams at hps
    obtain ⟨word, hw, hps⟩ := exceptBind_eq_ok.mp hps
    obtain ⟨language, hl, hps⟩ := exceptBind_eq_ok.mp hps
    obtain ⟨sex, hs, hps⟩ := exceptBind_eq_ok.mp hps
    obtain ⟨order, ho, hps⟩ := exceptBind_eq_ok.mp hps
    obtain ⟨limit, hlim, hps⟩ := exceptBind_eq_ok.mp hps
    obtain ⟨minRate, hrate, hps⟩ := exceptBind_eq_ok.mp hps
    obtain ⟨country, hc, hps⟩ := exceptBind_eq_ok.mp hps
    cases hps
    have hlimit : ∃ n : Int, limit = some n ∧ 1 ≤ n ∧ n ≤ 50 := by
      rcases validateInt_ok_cases hlim with ⟨_, hr⟩ | ⟨n, hr, h1, h2⟩
      · exact ⟨5, hr, by omega, by omega⟩
      · exact ⟨n, hr, h1, h2⟩
    have hminRate : minRate = none ∨ ∃ n : Int, minRate = some n ∧ 0 ≤ n ∧ n ≤ 5 := by
      rcases validateInt_ok_cases hrate with ⟨_, hr⟩ | ⟨n, hr, h1, h2⟩
      · exact Or.inl hr
      · exact Or.inr ⟨n, hr, h1, h2⟩
    obtain ⟨ln, hln, hln1, hln2⟩ := hlimit
    constructor
    · intro v hv
      rw [hln] at hv
      simp [paramValue, List.find?] at hv
      exact ⟨ln, by rw [← hv], hln1, hln2⟩
    · intro v hv
      rcases hminRate with hmr | ⟨rn, hmr, hr1, hr2⟩ <;> rw [hmr] at hv <;>
        rcases country with _ | c <;> rcases sex with _ | s0 <;>
          simp [paramValue, List.find?] at hv
      all_goals exact ⟨rn, by rw [← hv], hr1, hr2⟩

/-- C3 (witness): an absent `limit` yields the default 5, the
out-of-range value 99 fails naming the bounds 1 and 50, and the
`limit` parameter a concrete lookup sends is an in-range integer. -/
theorem c3_validateInt_bounds_witness :
    validateInt none "limit" 1 50 (some 5) = .ok (some 5)
    ∧ validateInt (some (.int 99)) "limit" 1 50 (some 5) =
        .error (intErrMsg "limit" 1 50)
    ∧ ∃ n : Int, (some "7" : Option String) = some (toString n) ∧ 1 ≤ n ∧ n ≤ 50 :=
  ⟨c3_validateInt_bounds.1 "limit" 1 50 (some 5),
    c3_validateInt_bounds.2.2.1 (.int 99) "limit" 1 50 (some 5) (by omega),
    (c3_validateInt_bounds.2.2.2
      { word := some "neko", min_rate := none, limit := some (.int 7) }
      [("word", some "neko"), ("language", some "ja"),
       ("order", some "rate-desc"), ("limit", some "7")] rfl).1
      (some "7") rfl⟩

/-- C4: a non-2xx Forvo response makes the request throw an error
embedding the status and the response body; a 2xx response hands the
body on unchanged; and in the word-pronunciations handler an absent
`items` field behaves exactly like an empty list — every successful
outcome on such data is the informational no-results reply, never a
fault. -/
theorem c4_forvo_status_and_empty_items :
    (∀ resp : HttpResponse, resp.status < 200 ∨ 300 ≤ resp.status →
      ∃ e, forvoCheckStatus resp = .error e
        ∧ SubstrOf (toString resp.status) e ∧ SubstrOf resp.body e)
    ∧ (∀ resp : HttpResponse, 200 ≤ resp.status → resp.status < 300 →
      forvoCheckStatus resp = .ok resp.body)
    ∧ (∀ args, handleWordPronunciations args ⟨none⟩ =
        handleWordPronunciations args ⟨some []⟩)
    ∧ (∀ args r, handleWordPronunciations args ⟨none⟩ = .ok r →
        ∃ msg, r = .noResults msg) := by
  refine ⟨fun resp h => ?_, fun resp h1 h2 => ?_, fun args => rfl, fun args r h => ?_⟩
  · refine ⟨forvoErrMsg resp.status resp.statusMessage resp.body, ?_, ?_, ?_⟩
    · rw [forvoCheckStatus, if_pos h]
    · exact ⟨"Forvo API error: ".data,
        " ".data ++ resp.statusMessage.data ++
          (if resp.body = "" then "" else " — " ++ resp.body).data,
        by simp [forvoErrMsg, String.data_append]⟩
    · by_cases hb : resp.body = ""
      · exact ⟨[], (forvoErrMsg resp.status resp.statusMessage resp.body).data,
          by simp [hb]⟩
      · exact ⟨"Forvo API error: ".data ++ (toString resp.status).data ++
            " ".data ++ resp.statusMessage.data ++ " — ".data, [],
          by simp [forvoErrMsg, String.data_append, hb]⟩
  · rw [forvoCheckStatus, if_neg (by omega)]
  · unfold handleWordPronunciations at h
    obtain ⟨word, hw, h⟩ := exceptBind_eq_ok.mp h
    obtain ⟨language, hl, h⟩ := exceptBind_eq_ok.mp h
    obtain ⟨sex, hs, h⟩ := exceptBind_eq_ok.mp h
    obtain ⟨order, ho, h⟩ := exceptBind_eq_ok.mp h
    obtain ⟨limit, hlim, h⟩ := exceptBind_eq_ok.mp h
    obtain ⟨minRate, hrate, h⟩ := exceptBind_eq_ok.mp h
    obtain ⟨country, hc, h⟩ := exceptBind_eq_ok.mp h
    exact ⟨_, (Except.ok.inj h).symm⟩

/-- C4 (witness): a concrete 404 yields an error embedding status and
body, and a concrete call on a reply without `items` succeeds with
the no-results message. -/
theorem c4_forvo_status_and_empty_items_witness :
    (∃ e, forvoCheckStatus ⟨404, "Not Found", "no such word"⟩ = .error e
      ∧ SubstrOf (toString (404 : Nat)) e ∧ SubstrOf "no such word" e)
    ∧ ∃ msg, (WordPronsResult.noResults
        ("No pronunciations found for \x27neko\x27 in language \x27ja\x27")) =
        .noResults msg :=
  ⟨c4_forvo_status_and_empty_items.1 ⟨404, "Not Found", "no such word"⟩
      (by decide),
    c4_forvo_status_and_empty_items.2.2.2 { word := some "neko" } _ rfl⟩

/-- C6: whenever the download flow reaches a payload, the audio URL
is the mp3 path when that is present (truthy) and the ogg path
otherwise, the reported audio is the base64 encoding of exactly the
downloaded bytes, the reported size is their count, and the format is
derived from the URL alone — `"mp3"` exactly when the URL contains
that substring, else `"ogg"`, regardless of the bytes. -/
theorem c6_audio_materialization
    (deps : DownloadDeps) (args : DownloadArgs)
    (w l : String) (sex : Option String) (i best : ForvoItem)
    (is : List ForvoItem) (url : String) (bytes : List Byte)
    (hw : validateString args.word "word" = .ok w)
    (hl : validateLanguage args.language = .ok l)
    (hs : validateSex args.sex = .ok sex)
    (hd : deps.lookup (mkDownloadParams w l) = .ok ⟨some (i :: is)⟩)
    (hbest : (applySexFilter sex (i :: is)).headD i = best)
    (hurl : jsOrStr best.pathmp3 best.pathogg = some url)
    (hne : url ≠ "")
    (hb : deps.download url = .ok bytes) :
    handleDownloadPronunciation deps args = .ok (.payload
      { word := w
        language := l
        audio_base64 := base64Encode bytes
        format := if strIncludes url "mp3" then "mp3" else "ogg"
        size_bytes := bytes.length
        username := best.username
        sex := best.sex
        country := best.country
        rate := best.rate })
    ∧ (truthyS best.pathmp3 = true → best.pathmp3 = some url)
    ∧ (truthyS best.pathmp3 = false → best.pathogg = some url) := by
  refine ⟨?_, (jsOrStr_cases hurl).1, (jsOrStr_cases hurl).2⟩
  unfold handleDownloadPronunciation
  rw [hw, exceptBind_ok, hl, exceptBind_ok, hs, exceptBind_ok, hd, exceptBind_ok]
  simp only [Option.getD, hbest, hurl]
  have ht : truthyS (some url) = true := by simp [truthyS, hne]
  rw [ht]
  simp only [if_true, Option.getD, hb, exceptBind_ok]

/-- C6 (witness): a concrete download of the bytes `ID3` through an
item carrying an mp3 URL reports base64 `SUQz`, format `mp3` and
size 3. -/
theorem c6_audio_materialization_witness :
    handleDownloadPronunciation demoDeps
      { word := some "neko", language := some "ja", sex := some "f" } =
      .ok (.payload
        { word := "neko", language := "ja", audio_base64 := "SUQz",
          format := "mp3", size_bytes := 3, username := "u",
          sex := some "f", country := "Japan", rate := 2 }) :=
  (c6_audio_materialization demoDeps
    { word := some "neko", language := some "ja", sex := some "f" }
    "neko" "ja" (some "f") demoItem demoItem
    [] "https://audio.forvo.com/x.mp3" [(73 : Byte), 68, 51]
    rfl rfl rfl rfl rfl rfl (by decide) rfl).1

/-- C9: the download handler consults the provider only at parameter
lists whose `order` is `rate-desc` and whose `limit` is `5` — its
outcome cannot distinguish two lookup oracles that agree on all such
lists — and the fixed parameter list it builds carries exactly those
two values whatever the caller supplied. -/
theorem c9_download_lookup_fixed (args : DownloadArgs)
    (dl : String → Except String (List Byte))
    (f g : List (String × Option String) → Except String ForvoData)
    (hfg : ∀ ps, paramValue ps "order" = some (some "rate-desc") →
      paramValue ps "limit" = some (some "5") → f ps = g ps) :
    handleDownloadPronunciation ⟨f, dl⟩ args =
      handleDownloadPronunciation ⟨g, dl⟩ args
    ∧ ∀ w l, paramValue (mkDownloadParams w l) "order" = some (some "rate-desc")
        ∧ paramValue (mkDownloadParams w l) "limit" = some (some "5") := by
  refine ⟨?_, fun w l => ⟨rfl, rfl⟩⟩
  unfold handleDownloadPronunciation
  cases hw : validateString args.word "word" with
  | error e => rfl
  | ok word =>
    simp only [exceptBind_ok]
    cases hl : validateLanguage args.language with
    | error e => rfl
    | ok language =>
      simp only [exceptBind_ok]
      cases hs : validateSex args.sex with
      | error e => rfl
      | ok sex =>
        simp only [exceptBind_ok]
        rw [hfg (mkDownloadParams word language) rfl rfl]

/-- C9 (witness): a lookup oracle that answers only requests with
`order = rate-desc` and one that answers everything are
indistinguishable to the handler on a concrete call. -/
theorem c9_download_lookup_fixed_witness :
    handleDownloadPronunciation
      ⟨fun ps => if paramValue ps "order" = some (some "rate-desc")
          then .ok ⟨none⟩ else .error "wrong order",
        fun _ => .ok []⟩
      { word := some "neko" } =
    handleDownloadPronunciation
      ⟨fun _ => .ok ⟨none⟩, fun _ => .ok []⟩
      { word := some "neko" } :=
  (c9_download_lookup_fixed { word := some "neko" } (fun _ => .ok [])
    (fun ps => if paramValue ps "order" = some (some "rate-desc")
      then .ok ⟨none⟩ else .error "wrong order")
    (fun _ => .ok ⟨none⟩)
    (fun ps h1 _ => by simp [h1])).1

end AudioGen
